import Mathlib

/-!
Verification of the india-api time-series pipeline.

Shallow embedding of the core processing functions of the repository:

* `india_api/internal/inputs/utils.py` — `get_window`, `validate_forecast_timing`
* `india_api/internal/service/resample.py` — `resample_generation`
* `india_api/internal/inputs/indiadb/smooth.py` — `smooth_forecast`
* `india_api/internal/service/csv.py` — `format_csv_and_created_time`
* `india_api/internal/inputs/indiadb/client.py` — `check_user_has_access_to_site`,
  `post_site_generation`
* `india_api/internal/service/regions.py` — `get_forecast_timeseries_route`

Modelling conventions:

* Instants are minutes since the Unix epoch, UTC, as `Int` (or `Nat` for the
  generation series, whose timestamps are plain UTC instants).
* The local timezone `Asia/Kolkata` is the fixed offset +05:30 = 330 minutes
  (no DST), so `astimezone(local_tz)` is `+ 330` on the wall-clock scale and
  back-conversion is `- 330`; `astimezone` never changes the instant itself.
* Power values are `ℚ` (Python floats hold the exact decimal values used in
  the tests; all arithmetic performed by the code here is exact in ℚ).
* `datetime.replace(hour=0, minute=0, second=0, microsecond=0)` is flooring a
  wall-clock minute count to a multiple of 1440; `.hour` is `% 1440 / 60`.
  `Int` division `/` in Lean is Euclidean division, which for the positive
  divisors used here coincides with Python floor division.
* Functions that read the clock (`dt.datetime.now`) take `now` as an explicit
  argument.
* Series are ordered ascending by `Time` with unique times (data-model
  invariant of the repository); the positional embedding of the pandas
  rolling operations relies on this ordering.
-/

/-! ### Time utilities -/

/-- The fixed UTC offset of `Asia/Kolkata` in minutes (+05:30). -/
def istOffset : Int := 330

/-- Wall-clock midnight of the day containing minute value `t`: the embedding of
`datetime.replace(hour=0, minute=0, second=0, microsecond=0)` on a wall-clock
minute scale. -/
def floorDay (t : Int) : Int := 1440 * (t / 1440)

/-- The `.hour` field of a wall-clock minute value. -/
def hourOfDay (t : Int) : Int := t % 1440 / 60

/-- Embedding of `india_api.internal.inputs.utils.get_window`.  The code takes
the current instant from the clock; here it is the argument `now` (a UTC
instant in minutes).  It converts to IST wall-clock minutes, floors to local
midnights (two days back for the start; tomorrow or the day after tomorrow for
the end depending on the 9:00 IST cutoff), and converts the results back to
UTC instants. -/
def get_window (now : Int) : Int × Int :=
  let now_ist := now + istOffset
  let start := floorDay (now_ist - 2 * 1440)
  let stop :=
    if hourOfDay now_ist < 9 then floorDay (now_ist + 1 * 1440)
    else floorDay (now_ist + 2 * 1440)
  (start - istOffset, stop - istOffset)

/-- Embedding of `india_api.internal.inputs.utils.validate_forecast_timing`.
`forecast_date` is the requested target instant and `now` the current instant
(both UTC minutes; the code reads `now` from the clock).  The cutoff is 9:00
IST on the day one day before the target's IST wall-clock time, and the result
is `current_time > cutoff_time`. -/
def validate_forecast_timing (forecast_date now : Int) : Bool :=
  let forecast_ist := forecast_date + istOffset
  let current_time := now + istOffset
  let cutoff_time := floorDay (forecast_ist - 1440) + 9 * 60
  decide (cutoff_time < current_time)

/-! ### Data model (`india_api/internal/models.py`) -/

/-- `ForecastHorizon` enumeration from `india_api.internal.models`. -/
inductive ForecastHorizon
  | latest
  | horizon
  | day_ahead
deriving DecidableEq

/-- `PredictedPower`: a forecast point.  `CreatedTime` is the creation
provenance of the forecast run (non-optional in the pydantic model). -/
structure PredictedPower where
  Time : Int
  PowerKW : ℚ
  CreatedTime : Int
deriving DecidableEq

/-- `ActualPower`: an actual generation reading (no provenance). -/
structure ActualPower where
  Time : Nat
  PowerKW : ℚ
deriving DecidableEq

/-! ### Resampler (`india_api/internal/service/resample.py`)

`resample_generation` sets the `Time` column as index and runs
`df.resample(f"{internal_minutes}T").mean().dropna()` followed by
`df['PowerKW'].clip(lower=0)`.  Pandas bins with the default
`origin='start_day'`: fixed-width bins of `internal_minutes` minutes anchored
at midnight of the earliest timestamp's day, covering the bin of the earliest
point through the bin of the latest point, labelled by their left edge; `mean`
of an empty bin is NaN and `dropna` removes it. -/

/-- Midnight (UTC) of the day containing UTC minute `t` (pandas
`origin='start_day'`). -/
def startOfDay (t : Nat) : Nat := 1440 * (t / 1440)

/-- Earliest `Time` in the series (0 for an empty series, which
`resample_generation` never reaches). -/
def minTime (values : List ActualPower) : Nat :=
  match values with
  | [] => 0
  | v :: vs => vs.foldr (fun x a => min x.Time a) v.Time

/-- Latest `Time` in the series. -/
def maxTime (values : List ActualPower) : Nat :=
  match values with
  | [] => 0
  | v :: vs => vs.foldr (fun x a => max x.Time a) v.Time

/-- Left edge of the width-`w` bin anchored at `origin` that contains `t`. -/
def bucketOf (origin w t : Nat) : Nat := origin + w * ((t - origin) / w)

/-- The `PowerKW` values of the series falling into the bin labelled `b`. -/
def bucketMembers (values : List ActualPower) (origin w b : Nat) : List ℚ :=
  (values.filter (fun x => bucketOf origin w x.Time == b)).map (·.PowerKW)

/-- Embedding of `resample_generation`.  Bins run from the bin of the earliest
point to the bin of the latest point; a bin with no members is dropped
(`mean` gives NaN, removed by `dropna`), any other bin yields one row whose
`PowerKW` is the mean of its members clipped below at 0
(`clip(lower=0)`). -/
def resample_generation (values : List ActualPower) (internal_minutes : Nat) :
    List ActualPower :=
  if values.isEmpty then []
  else
    let origin := startOfDay (minTime values)
    let first := bucketOf origin internal_minutes (minTime values)
    let last := bucketOf origin internal_minutes (maxTime values)
    (List.range ((last - first) / internal_minutes + 1)).filterMap (fun i =>
      let pts := bucketMembers values origin internal_minutes
        (first + internal_minutes * i)
      if pts.length = 0 then none
      else some
        { Time := first + internal_minutes * i
          PowerKW := max 0 (pts.sum / (pts.length : ℚ)) })

/-! ### Smoothing engine (`india_api/internal/inputs/indiadb/smooth.py`)

`smooth_forecast` computes
`(df.rolling(4, min_periods=1).mean() + df[::-1].rolling(4, min_periods=1).mean()) / 2`
(the forward rolling mean over the window of each point and up to three
preceding points, plus the backward rolling mean over each point and up to
three following points, halved), converts the column with `astype(int)`
(C-style truncation toward zero), and reattaches each input point's
`CreatedTime` positionally. -/

/-- Forward rolling window (pandas `rolling(4, min_periods=1)`): the value at
index `i` together with up to 3 preceding values. -/
def rollingWindowFwd (xs : List ℚ) (i : Nat) : List ℚ :=
  (xs.take (i + 1)).drop (i + 1 - 4)

/-- Backward rolling window (pandas `rolling(4, min_periods=1)` on the
reversed frame, realigned): the value at index `i` together with up to 3
following values. -/
def rollingWindowBwd (xs : List ℚ) (i : Nat) : List ℚ :=
  (xs.drop i).take 4

/-- Arithmetic mean of a list of rationals. -/
def listMean (l : List ℚ) : ℚ := l.sum / (l.length : ℚ)

/-- numpy `astype(int)` on a float column: truncation toward zero. -/
def intTrunc (q : ℚ) : Int := if 0 ≤ q then ⌊q⌋ else ⌈q⌉

/-- Embedding of `smooth_forecast`. -/
def smooth_forecast (values : List PredictedPower) : List PredictedPower :=
  let xs := values.map (·.PowerKW)
  values.enum.map (fun iv =>
    { Time := iv.2.Time
      PowerKW := ((intTrunc ((listMean (rollingWindowFwd xs iv.1) +
        listMean (rollingWindowBwd xs iv.1)) / 2) : Int) : ℚ)
      CreatedTime := iv.2.CreatedTime })

/-- Modelled from the spec: the same smoothing pipeline but with the output
`power_kw` "rounded to the nearest integer kW" as the spec claims, in place of
the code's `astype(int)` truncation.  Used only as the refinement target to
compare against `smooth_forecast`. -/
def smooth_forecast_spec_rounded (values : List PredictedPower) :
    List PredictedPower :=
  let xs := values.map (·.PowerKW)
  values.enum.map (fun iv =>
    { Time := iv.2.Time
      PowerKW := ((round ((listMean (rollingWindowFwd xs iv.1) +
        listMean (rollingWindowBwd xs iv.1)) / 2) : Int) : ℚ)
      CreatedTime := iv.2.CreatedTime })

/-! ### Report formatter (`india_api/internal/service/csv.py`) -/

/-- IST calendar date (as a day index) of a UTC instant: the code's
`df["Date [IST]"]` column. -/
def istDate (t : Int) : Int := (t + istOffset) / 1440

/-- IST minute-of-day of a UTC instant: the code's `"%H:%M"` rendering keeps
exactly this information. -/
def istMinuteOfDay (t : Int) : Int := (t + istOffset) % 1440

/-- One output row of `format_csv_and_created_time`: local date, the
`"HH:MM - HH:MM"` interval (start and the start plus 15 minutes), and the
power in MW. -/
structure CsvRow where
  dateIST : Int
  startTimeIST : Int
  endTimeIST : Int
  powerMW : ℚ
deriving DecidableEq

/-- The horizon filter block of `format_csv_and_created_time`: `day_ahead`
keeps rows whose IST date equals the IST date of `now_ist + 1 day`, `latest`
keeps rows with `Time >= now_ist`, any other horizon keeps everything. -/
def horizonFilter (values : List PredictedPower)
    (forecast_horizon : ForecastHorizon) (now : Int) : List PredictedPower :=
  if forecast_horizon = ForecastHorizon.day_ahead then
    values.filter (fun v => istDate v.Time == istDate (now + 1440))
  else if forecast_horizon = ForecastHorizon.latest then
    values.filter (fun v => decide (now ≤ v.Time))
  else values

/-- One step of the pandas column `max()`. -/
def maxStep (acc : Option Int) (v : PredictedPower) : Option Int :=
  match acc with
  | none => some v.CreatedTime
  | some m => some (max m v.CreatedTime)

/-- `df["CreatedTime"].max()`: `none` on an empty frame (pandas NaN). -/
def maxCreated (values : List PredictedPower) : Option Int :=
  values.foldl maxStep none

/-- Embedding of `format_csv_and_created_time`.  The horizon filter runs
first; the returned `created_time` is the maximum `CreatedTime` of the rows
that survived it, and the rows are built from those same survivors. -/
def format_csv_and_created_time (values : List PredictedPower)
    (forecast_horizon : ForecastHorizon) (now : Int) :
    List CsvRow × Option Int :=
  let df := horizonFilter values forecast_horizon now
  (df.map (fun v =>
      { dateIST := istDate v.Time
        startTimeIST := istMinuteOfDay v.Time
        endTimeIST := istMinuteOfDay (v.Time + 15)
        powerMW := v.PowerKW / 1000 }),
    maxCreated df)

/-- The claim's horizon-filter predicate, written from its own words: a row is
kept when, for `day_ahead`, its IST calendar date is tomorrow's IST date, and
for `latest`, its time is not before `now`. -/
def keepRow (forecast_horizon : ForecastHorizon) (now : Int)
    (v : PredictedPower) : Prop :=
  match forecast_horizon with
  | ForecastHorizon.day_ahead => istDate v.Time = istDate now + 1
  | ForecastHorizon.latest => now ≤ v.Time
  | ForecastHorizon.horizon => True

/-! ### Access control and generation submission
(`india_api/internal/inputs/indiadb/client.py`)

`check_user_has_access_to_site` resolves the user (via the external
`get_user_by_email`; here the resolved `User` is the argument), collects the
site uuids of the user's site group, and raises
`HTTPException(status_code=403, detail=...)` naming that list when the
requested uuid is not among them.  `post_site_generation` runs the access
check and then inserts one row per reading via `insert_generation_values` —
the returned list models exactly the rows written to the datastore. -/

/-- A site row as seen through `user.site_group.sites`. -/
structure SiteRef where
  site_uuid : String
deriving DecidableEq

/-- A site group: the ownership unit holding sites. -/
structure SiteGroup where
  sites : List SiteRef
deriving DecidableEq

/-- A user resolved from an email by the external datastore. -/
structure User where
  email : String
  site_group : SiteGroup
deriving DecidableEq

/-- The `HTTPException` raised by the access check: status 403 and the list of
site uuids the user does have access to (carried in the detail message). -/
structure Forbidden where
  status_code : Nat
  accessible_site_uuids : List String
deriving DecidableEq

/-- Embedding of `check_user_has_access_to_site`. -/
def check_user_has_access_to_site (user : User) (site_uuid : String) :
    Except Forbidden Unit :=
  let site_uuids := user.site_group.sites.map (·.site_uuid)
  if site_uuid ∈ site_uuids then Except.ok ()
  else Except.error
    { status_code := 403, accessible_site_uuids := site_uuids }

/-- One datastore row handed to `insert_generation_values`. -/
structure GenRow where
  start_utc : Nat
  power_kw : ℚ
  site_uuid : String
deriving DecidableEq

/-- Embedding of `post_site_generation`: access check, then an unconditional
insert of every reading.  The `ok` payload is the list of rows written.  No
capacity bound is consulted anywhere on this path. -/
def post_site_generation (user : User) (site_uuid : String)
    (generation : List ActualPower) : Except Forbidden (List GenRow) :=
  match check_user_has_access_to_site user site_uuid with
  | Except.error e => Except.error e
  | Except.ok _ =>
      Except.ok (generation.map (fun g =>
        { start_utc := g.Time, power_kw := g.PowerKW, site_uuid := site_uuid }))

/-! ### Region forecast route (`india_api/internal/service/regions.py`) -/

/-- The smoothing tail of the indiadb client's
`get_predicted_power_production_for_location`: the raw series fetched from the
datastore is smoothed exactly when `smooth_flag` is set. -/
def get_predicted_power_production_for_location (raw : List PredictedPower)
    (smooth_flag : Bool) : List PredictedPower :=
  if smooth_flag then smooth_forecast raw else raw

/-- Embedding of `get_forecast_timeseries_route`: the route forces
`smooth_flag = False` when the horizon is `day_ahead` before delegating to the
client. -/
def get_forecast_timeseries_route (forecast_horizon : ForecastHorizon)
    (smooth_flag : Bool) (raw : List PredictedPower) : List PredictedPower :=
  let flag :=
    if forecast_horizon = ForecastHorizon.day_ahead then false else smooth_flag
  get_predicted_power_production_for_location raw flag

/-! ### Concrete fixtures used by the claims and tests -/

/-- The two-point series of `test_resample_generation_1_period`
(2021-01-01 00:00 and 00:08, rebased to minutes 0 and 8). -/
def exResample2 : List ActualPower := [⟨0, 1⟩, ⟨8, 2⟩]

/-- The six-point series of `test_resample_generation_3_periods_with_gaps`
(00:00, 00:08, 00:22, 01:30, 01:31, 01:32 rebased to minutes). -/
def exResample6 : List ActualPower :=
  [⟨0, 1⟩, ⟨8, 2⟩, ⟨22, 3⟩, ⟨90, 4⟩, ⟨91, 5⟩, ⟨92, 6⟩]

/-- A two-point forecast series whose smoothed first point separates
truncation toward zero from rounding to nearest. -/
def exSmooth : List PredictedPower := [⟨0, 0, 7⟩, ⟨10, 3, 7⟩]

/-- A user owning sites `site1` and `site2`, mirroring the conftest fixture
(`test@test.com`, whose site has `capacity_kw=4`). -/
def exUser : User := ⟨"test@test.com", ⟨[⟨"site1"⟩, ⟨"site2"⟩]⟩⟩

/-- `capacity_kw` of the conftest site (`capacity_kw=4`). -/
def exSiteCapacity : ℚ := 4

/-- A forecast series for the report formatter: one row inside the `latest`
filter window (created at 5) and one before `now` (created at 99). -/
def exCsv : List PredictedPower := [⟨200, 1, 5⟩, ⟨50, 1, 99⟩]

/-! ## Theorems -/

/-! ### Shared helper lemmas -/

theorem istDate_add_day (t : Int) : istDate (t + 1440) = istDate t + 1 := by
  unfold istDate
  omega

theorem maxCreated_go {l : List PredictedPower} :
    ∀ {acc : Option Int} {t : Int}, l.foldl maxStep acc = some t →
      (acc = some t ∨ ∃ v ∈ l, v.CreatedTime = t) ∧
      (∀ m, acc = some m → m ≤ t) ∧
      (∀ v ∈ l, v.CreatedTime ≤ t) := by
  induction l with
  | nil =>
    intro acc t h
    refine ⟨Or.inl h, fun m hm => ?_, by simp⟩
    rw [hm] at h
    simp only [List.foldl_nil, Option.some.injEq] at h
    omega
  | cons v vs ih =>
    intro acc t h
    rw [List.foldl_cons] at h
    obtain ⟨h1, h2, h3⟩ := ih h
    have hstep : ∀ m, acc = some m → m ≤ t := by
      intro m hm
      have := h2 (max m v.CreatedTime) (by rw [hm]; rfl)
      exact le_trans (le_max_left _ _) this
    have hv : v.CreatedTime ≤ t := by
      cases hacc : acc with
      | none => exact h2 v.CreatedTime (by rw [hacc]; rfl)
      | some m =>
        have hmx := h2 (max m v.CreatedTime) (by rw [hacc]; rfl)
        exact le_trans (le_max_right m v.CreatedTime) hmx
    refine ⟨?_, hstep, ?_⟩
    · rcases h1 with h1 | ⟨u, hu, hut⟩
      · cases hacc : acc with
        | none =>
          rw [hacc] at h1
          simp only [maxStep, Option.some.injEq] at h1
          exact Or.inr ⟨v, List.mem_cons_self _ _, h1⟩
        | some m =>
          rw [hacc] at h1
          simp only [maxStep, Option.some.injEq] at h1
          rcases max_choice m v.CreatedTime with hc | hc
          · exact Or.inl (by rw [← h1, hc])
          · exact Or.inr ⟨v, List.mem_cons_self _ _, by rw [← h1, hc]⟩
      · exact Or.inr ⟨u, List.mem_cons_of_mem _ hu, hut⟩
    · intro u hu
      rcases List.mem_cons.mp hu with rfl | hu
      · exact hv
      · exact h3 u hu

theorem maxCreated_spec {l : List PredictedPower} {t : Int}
    (h : maxCreated l = some t) :
    (∃ v ∈ l, v.CreatedTime = t) ∧ ∀ v ∈ l, v.CreatedTime ≤ t := by
  obtain ⟨h1, _, h3⟩ := maxCreated_go (l := l) h
  rcases h1 with h1 | h1
  · cases h1
  · exact ⟨h1, h3⟩

theorem intTrunc_intCast (n : ℤ) : intTrunc (n : ℚ) = n := by
  unfold intTrunc
  split
  · exact Int.floor_intCast n
  · exact Int.ceil_intCast n

theorem intTrunc_of_nonneg {q : ℚ} (h : 0 ≤ q) : intTrunc q = ⌊q⌋ := by
  unfold intTrunc
  exact if_pos h

/-! ### C10 -/

/-- Claim C10: for every request to the region forecast route with horizon
`day_ahead`, smoothing is never applied: the route forces the smooth flag to
false before fetching, regardless of the caller-supplied `smooth_flag`, so the
returned series is the raw (unsmoothed) series. -/
theorem claim_C10_day_ahead_no_smooth (smooth_flag : Bool)
    (raw : List PredictedPower) :
    get_forecast_timeseries_route ForecastHorizon.day_ahead smooth_flag raw
      = raw := by
  simp [get_forecast_timeseries_route,
    get_predicted_power_production_for_location]

/-! ### C6 -/

/-- Claim C6: the authorization check succeeds iff the site uuid is among the
sites of the user's site group; otherwise it fails with a 403 Forbidden whose
payload carries exactly the list of site uuids the caller does have access
to. -/
theorem claim_C6_access_gating (user : User) (site_uuid : String) :
    (check_user_has_access_to_site user site_uuid = Except.ok () ↔
      site_uuid ∈ user.site_group.sites.map (·.site_uuid)) ∧
    (∀ e, check_user_has_access_to_site user site_uuid = Except.error e →
      site_uuid ∉ user.site_group.sites.map (·.site_uuid) ∧
      e.accessible_site_uuids = user.site_group.sites.map (·.site_uuid) ∧
      e.status_code = 403) := by
  unfold check_user_has_access_to_site
  by_cases h : site_uuid ∈ user.site_group.sites.map (·.site_uuid)
  · simp [h]
  · refine ⟨by simp [h], ?_⟩
    intro e he
    simp only [if_neg h, Except.error.injEq] at he
    subst he
    exact ⟨h, rfl, rfl⟩

/-- Witness for C6 at the conftest user: `site1` is in the group and the check
succeeds. -/
theorem claim_C6_witness :
    ("site1" ∈ exUser.site_group.sites.map (·.site_uuid)) ∧
    check_user_has_access_to_site exUser "site1" = Except.ok () :=
  ⟨by decide, (claim_C6_access_gating exUser "site1").1.mpr (by decide)⟩

/-! ### C1 -/

/-- Claim C1 is violated by the code: `post_site_generation` performs no
capacity validation at all.  A reading of 1000 kW against the conftest site
whose `capacity_kw` is 4 is written to the datastore and the call succeeds,
with no `CapacityExceeded` (the repository's own test
`test_post_site_generation_exceding_max_capacity` expects HTTP 422 here). -/
theorem claim_C1_code_behavior :
    (1000 : ℚ) > exSiteCapacity ∧
    post_site_generation exUser "site1" [⟨1, 1000⟩] =
      Except.ok [{ start_utc := 1, power_kw := 1000, site_uuid := "site1" }] := by
  constructor
  · unfold exSiteCapacity
    norm_num
  · rfl

/-! ### C2 -/

/-- Counterexample to claim C2 as stated: at `now = 0` (midnight UTC), the
window start is not midnight UTC (its UTC minute-of-day is 1110 = 18:30), and
it differs from `midnight_utc(now) − 2 days = −2880`. -/
theorem claim_C2_counterexample :
    (get_window 0).1 % 1440 ≠ 0 ∧
    (get_window 0).1 ≠ floorDay 0 - 2 * 1440 := by
  decide

/-- Claim C2 amended: both window edges are midnight in the local timezone
(Asia/Kolkata, +05:30) rather than midnight UTC; the start is local midnight
of `now − 2 days`, and `end − start` is 3 days before the 09:00 local cutoff
and 4 days after it. -/
theorem claim_C2_amended (now : Int) :
    ((get_window now).1 + istOffset) % 1440 = 0 ∧
    ((get_window now).2 + istOffset) % 1440 = 0 ∧
    (get_window now).1 = floorDay (now + istOffset) - 2 * 1440 - istOffset ∧
    (get_window now).2 - (get_window now).1 =
      (if hourOfDay (now + istOffset) < 9 then 3 * 1440 else 4 * 1440) := by
  unfold get_window floorDay hourOfDay istOffset
  by_cases h : (now + 330) % 1440 / 60 < 9
  · simp only [if_pos h]
    refine ⟨by omega, by omega, by omega, by omega⟩
  · simp only [if_neg h]
    refine ⟨by omega, by omega, by omega, by omega⟩

/-! ### C9 -/

/-- Claim C9: the day-ahead deadline predicate returns true iff the current
instant is strictly past 09:00 local time (Asia/Kolkata) on the day preceding
the target date; it is a boolean policy check on the two instants. -/
theorem claim_C9_day_ahead_cutoff (forecast_date now : Int) :
    validate_forecast_timing forecast_date now = true ↔
      floorDay (forecast_date + istOffset) - 1440 + 9 * 60 < now + istOffset := by
  unfold validate_forecast_timing floorDay istOffset
  simp only [decide_eq_true_eq]
  constructor <;> intro h <;> omega

/-! ### C5 -/

/-- Claim C5: on any series (all points carry `CreatedTime` — it is
non-optional), the report formatter's `created_at` is the maximum
`CreatedTime` among the rows remaining after the `latest`/`day_ahead` horizon
filter, not among all input rows: it is attained by a kept row and bounds
exactly the kept rows. -/
theorem claim_C5_report_provenance (values : List PredictedPower)
    (forecast_horizon : ForecastHorizon) (now t : Int)
    (hh : forecast_horizon = ForecastHorizon.latest ∨
      forecast_horizon = ForecastHorizon.day_ahead)
    (ht : (format_csv_and_created_time values forecast_horizon now).2 = some t) :
    (∃ v ∈ values, keepRow forecast_horizon now v ∧ v.CreatedTime = t) ∧
    (∀ v ∈ values, keepRow forecast_horizon now v → v.CreatedTime ≤ t) := by
  have hflt : (format_csv_and_created_time values forecast_horizon now).2 =
      maxCreated (horizonFilter values forecast_horizon now) := rfl
  rw [hflt] at ht
  obtain ⟨⟨v, hv, hvt⟩, hub⟩ := maxCreated_spec ht
  rcases hh with rfl | rfl
  · simp only [horizonFilter, if_neg (by decide :
      ¬ ForecastHorizon.latest = ForecastHorizon.day_ahead), if_pos rfl] at hv hub
    refine ⟨⟨v, (List.mem_filter.mp hv).1, ?_, hvt⟩, ?_⟩
    · have := (List.mem_filter.mp hv).2
      simpa [keepRow] using this
    · intro u hu hk
      exact hub u (List.mem_filter.mpr ⟨hu, by simpa [keepRow] using hk⟩)
  · simp only [horizonFilter, if_pos rfl] at hv hub
    refine ⟨⟨v, (List.mem_filter.mp hv).1, ?_, hvt⟩, ?_⟩
    · have := (List.mem_filter.mp hv).2
      simp only [beq_iff_eq, istDate_add_day] at this
      simpa [keepRow] using this
    · intro u hu hk
      refine hub u (List.mem_filter.mpr ⟨hu, ?_⟩)
      simp only [keepRow] at hk
      simp [beq_iff_eq, istDate_add_day, hk]

/-- Witness for C5: with `now = 100` and the `latest` filter, the excluded row
(created at 99) does not enter the maximum; the kept row's 5 is returned. -/
theorem claim_C5_witness :
    (∃ v ∈ exCsv, keepRow ForecastHorizon.latest 100 v ∧ v.CreatedTime = 5) ∧
    (∀ v ∈ exCsv, keepRow ForecastHorizon.latest 100 v → v.CreatedTime ≤ 5) :=
  claim_C5_report_provenance exCsv ForecastHorizon.latest 100 5 (Or.inl rfl) rfl

/-! ### C7 -/

theorem resample_nonneg {values : List ActualPower} {w : Nat}
    {p : ActualPower} (hp : p ∈ resample_generation values w) :
    0 ≤ p.PowerKW := by
  unfold resample_generation at hp
  by_cases hv : values.isEmpty
  · simp [hv] at hp
  · simp only [if_neg hv, List.mem_filterMap] at hp
    obtain ⟨i, -, hfi⟩ := hp
    split at hfi
    · exact absurd hfi (by simp)
    · simp only [Option.some.injEq] at hfi
      rw [← hfi]
      exact le_max_left 0 _

/-- Claim C7 amended: no point of the resampled output has `power_kw < 0`
(the resampler clips the bucket means below at 0), but the smoothing engine
applies no clamp, so a negative forecast passes through it negative — see the
counterexample.  The invariant is stated over every index via `getD` with a
non-negative fallback. -/
theorem claim_C7_amended (values : List ActualPower) (w i : Nat) :
    0 ≤ ((resample_generation values w).getD i
      { Time := 0, PowerKW := 0 }).PowerKW := by
  rw [List.getD_eq_getElem?_getD]
  cases h : (resample_generation values w)[i]? with
  | none => simp
  | some p =>
    have hp : p ∈ resample_generation values w := by
      have hg : (resample_generation values w).get? i = some p := by
        rw [List.get?_eq_getElem?, h]
      exact List.get?_mem hg
    simp only [Option.getD_some]
    exact resample_nonneg hp

/-- Counterexample to claim C7 as stated: the smoothed output of the one-point
series with `power_kw = −5` has a negative point — `smooth_forecast` never
clamps.  (The fallback element has `PowerKW = 0`, so a negative value proves
the point is real.) -/
theorem claim_C7_counterexample :
    ((smooth_forecast [{ Time := 0, PowerKW := -5, CreatedTime := 0 }]).getD 0
      { Time := 0, PowerKW := 0, CreatedTime := 0 }).PowerKW < 0 := by
  have h0 : ((smooth_forecast [{ Time := 0, PowerKW := -5, CreatedTime := 0 }]).getD 0
      { Time := 0, PowerKW := 0, CreatedTime := 0 }).PowerKW =
      ((intTrunc ((listMean (rollingWindowFwd [(-5 : ℚ)] 0) +
        listMean (rollingWindowBwd [(-5 : ℚ)] 0)) / 2) : Int) : ℚ) := rfl
  have h1 : (listMean (rollingWindowFwd [(-5 : ℚ)] 0) +
      listMean (rollingWindowBwd [(-5 : ℚ)] 0)) / 2 = ((-5 : ℤ) : ℚ) := by
    norm_num [listMean, rollingWindowFwd, rollingWindowBwd]
  rw [h0, h1, intTrunc_intCast]
  norm_num

/-! ### C4 -/

/-- Claim C4 amended: each point of the smoothed output carries the `Time` and
`CreatedTime` of the corresponding input point unchanged, and its `power_kw`
is the point-wise average of the forward and backward rolling means (window 4,
shrinking at the edges) truncated toward zero by `astype(int)` — not rounded
to the nearest integer. -/
theorem claim_C4_amended (values : List PredictedPower) (i : Nat)
    (v : PredictedPower) (hv : values.get? i = some v) :
    (smooth_forecast values).length = values.length ∧
    (smooth_forecast values).get? i = some
      { Time := v.Time
        PowerKW := ((intTrunc ((listMean (rollingWindowFwd
            (values.map (·.PowerKW)) i) +
          listMean (rollingWindowBwd (values.map (·.PowerKW)) i)) / 2) : Int) : ℚ)
        CreatedTime := v.CreatedTime } := by
  constructor
  · simp [smooth_forecast]
  · have hv2 : values[i]? = some v := by rw [← List.get?_eq_getElem?]; exact hv
    simp [smooth_forecast, List.get?_map, List.get?_enum, hv]
    exact ⟨v, hv2, rfl, rfl⟩

/-- Witness for C4 at the two-point fixture, index 0. -/
theorem claim_C4_witness :
    (smooth_forecast exSmooth).length = exSmooth.length ∧
    (smooth_forecast exSmooth).get? 0 = some
      { Time := 0
        PowerKW := ((intTrunc ((listMean (rollingWindowFwd
            (exSmooth.map (·.PowerKW)) 0) +
          listMean (rollingWindowBwd (exSmooth.map (·.PowerKW)) 0)) / 2) : Int) : ℚ)
        CreatedTime := 7 } :=
  claim_C4_amended exSmooth 0 ⟨0, 0, 7⟩ rfl

/-- Counterexample to claim C4 as stated: on the fixture, the code's first
smoothed value is 0 (truncation of 3/4) while rounding to the nearest integer
as the claim demands gives 1. -/
theorem claim_C4_counterexample :
    ((smooth_forecast exSmooth).getD 0 ⟨0, 0, 0⟩).PowerKW = 0 ∧
    ((smooth_forecast_spec_rounded exSmooth).getD 0 ⟨0, 0, 0⟩).PowerKW = 1 := by
  have h1 : (listMean (rollingWindowFwd [(0 : ℚ), 3] 0) +
      listMean (rollingWindowBwd [(0 : ℚ), 3] 0)) / 2 = 3 / 4 := by
    norm_num [listMean, rollingWindowFwd, rollingWindowBwd]
  constructor
  · have h0 : ((smooth_forecast exSmooth).getD 0 ⟨0, 0, 0⟩).PowerKW =
        ((intTrunc ((listMean (rollingWindowFwd [(0 : ℚ), 3] 0) +
          listMean (rollingWindowBwd [(0 : ℚ), 3] 0)) / 2) : Int) : ℚ) := rfl
    rw [h0, h1, intTrunc_of_nonneg (by norm_num)]
    have hf : (⌊(3 : ℚ) / 4⌋ : ℤ) = 0 := by
      rw [Int.floor_eq_iff]
      norm_num
    rw [hf]
    norm_num
  · have h0 : ((smooth_forecast_spec_rounded exSmooth).getD 0 ⟨0, 0, 0⟩).PowerKW =
        ((round ((listMean (rollingWindowFwd [(0 : ℚ), 3] 0) +
          listMean (rollingWindowBwd [(0 : ℚ), 3] 0)) / 2) : Int) : ℚ) := rfl
    rw [h0, h1, round_eq]
    have hf : (⌊(3 : ℚ) / 4 + 1 / 2⌋ : ℤ) = 1 := by
      rw [Int.floor_eq_iff]
      norm_num
    rw [hf]
    norm_num

/-! ### C3 -/

/-- Claim C3 is violated by the code: resampling `[(00:00,1.0),(00:08,2.0)]`
at 15 minutes yields one point at 00:00 whose `PowerKW` is the *unrounded*
bucket mean 3/2 — `resample_generation` never rounds to an integer, while the
claim (and the repository's own test `test_resample_generation_1_period`,
which asserts `values[0].PowerKW == 1.0`) demands 1. -/
theorem claim_C3_code_behavior :
    resample_generation exResample2 15 = [{ Time := 0, PowerKW := 3 / 2 }] ∧
    resample_generation exResample2 15 ≠ [{ Time := 0, PowerKW := 1 }] := by
  have hs : List.sum [(1 : ℚ), 2] / ((2 : ℕ) : ℚ) = 3 / 2 := by
    norm_num [List.sum_cons, List.sum_nil]
  have h0 : resample_generation exResample2 15 =
      [{ Time := 0, PowerKW := max 0 (List.sum [(1 : ℚ), 2] / ((2 : ℕ) : ℚ)) }] :=
    rfl
  have h1 : resample_generation exResample2 15 =
      [{ Time := 0, PowerKW := 3 / 2 }] := by
    rw [h0, hs, max_eq_right (by norm_num : (0 : ℚ) ≤ 3 / 2)]
  refine ⟨h1, ?_⟩
  rw [h1]
  intro hc
  simp only [List.cons.injEq, ActualPower.mk.injEq, true_and, and_true] at hc
  norm_num at hc

/-! ### C8 -/

theorem foldr_min_le_init (l : List ActualPower) (a : Nat) :
    l.foldr (fun x b => min x.Time b) a ≤ a := by
  induction l with
  | nil => simp
  | cons x xs ih => exact le_trans (min_le_right _ _) ih

theorem foldr_min_le_mem (l : List ActualPower) (x : ActualPower) (a : Nat) :
    x ∈ l → l.foldr (fun y b => min y.Time b) a ≤ x.Time := by
  induction l with
  | nil => intro hx; cases hx
  | cons y ys ih =>
    intro hx
    rcases List.mem_cons.mp hx with rfl | hx2
    · exact min_le_left _ _
    · exact le_trans (min_le_right _ _) (ih hx2)

theorem foldr_le_max_init (l : List ActualPower) (a : Nat) :
    a ≤ l.foldr (fun x b => max x.Time b) a := by
  induction l with
  | nil => simp
  | cons x xs ih => exact le_trans ih (le_max_right _ _)

theorem foldr_le_max_mem (l : List ActualPower) (x : ActualPower) (a : Nat) :
    x ∈ l → x.Time ≤ l.foldr (fun y b => max y.Time b) a := by
  induction l with
  | nil => intro hx; cases hx
  | cons y ys ih =>
    intro hx
    rcases List.mem_cons.mp hx with rfl | hx2
    · exact le_max_left _ _
    · exact le_trans (ih hx2) (le_max_right _ _)

theorem minTime_le {values : List ActualPower} {x : ActualPower}
    (hx : x ∈ values) : minTime values ≤ x.Time := by
  cases values with
  | nil => cases hx
  | cons v vs =>
    unfold minTime
    rcases List.mem_cons.mp hx with rfl | hx2
    · exact foldr_min_le_init vs x.Time
    · exact foldr_min_le_mem vs x v.Time hx2

theorem le_maxTime {values : List ActualPower} {x : ActualPower}
    (hx : x ∈ values) : x.Time ≤ maxTime values := by
  cases values with
  | nil => cases hx
  | cons v vs =>
    unfold maxTime
    rcases List.mem_cons.mp hx with rfl | hx2
    · exact foldr_le_max_init vs x.Time
    · exact foldr_le_max_mem vs x v.Time hx2

theorem nat_mul_sub (w a b : Nat) : w * (a - b) = w * a - w * b := by
  rcases Nat.le_total b a with h | h
  · rcases Nat.le.dest h with ⟨c, rfl⟩
    simp [Nat.mul_add, Nat.add_sub_cancel_left]
  · have h1 : a - b = 0 := Nat.sub_eq_zero_of_le h
    have h2 : w * a ≤ w * b := Nat.mul_le_mul_left w h
    simp [h1, Nat.sub_eq_zero_of_le h2]

theorem startOfDay_le (t : Nat) : startOfDay t ≤ t := by
  unfold startOfDay
  calc 1440 * (t / 1440) = t / 1440 * 1440 := Nat.mul_comm _ _
    _ ≤ t := Nat.div_mul_le_self t 1440

theorem resample_eq (values : List ActualPower) (w : Nat)
    (hv : values.isEmpty = false) :
    resample_generation values w =
      (List.range ((bucketOf (startOfDay (minTime values)) w (maxTime values) -
          bucketOf (startOfDay (minTime values)) w (minTime values)) / w + 1)).filterMap
        (fun i =>
          if (bucketMembers values (startOfDay (minTime values)) w
              (bucketOf (startOfDay (minTime values)) w (minTime values) + w * i)).length = 0
          then none
          else some
            { Time := bucketOf (startOfDay (minTime values)) w (minTime values) + w * i
              PowerKW := max 0 ((bucketMembers values (startOfDay (minTime values)) w
                  (bucketOf (startOfDay (minTime values)) w (minTime values) + w * i)).sum /
                ((bucketMembers values (startOfDay (minTime values)) w
                  (bucketOf (startOfDay (minTime values)) w (minTime values) + w * i)).length : ℚ)) }) := by
  unfold resample_generation
  simp only [hv, Bool.false_eq_true, if_false]

theorem resample_sources {values : List ActualPower} {w : Nat}
    {p : ActualPower} (hp : p ∈ resample_generation values w) :
    ∃ x ∈ values, bucketOf (startOfDay (minTime values)) w x.Time = p.Time := by
  by_cases hv : values.isEmpty
  · rw [show resample_generation values w = [] by simp [resample_generation, hv]] at hp
    cases hp
  · rw [resample_eq values w (Bool.not_eq_true _ ▸ hv)] at hp
    rw [List.mem_filterMap] at hp
    obtain ⟨i, -, hfi⟩ := hp
    split at hfi
    · exact absurd hfi (by simp)
    · rename_i hc
      simp only [Option.some.injEq] at hfi
      have hTime : p.Time =
          bucketOf (startOfDay (minTime values)) w (minTime values) + w * i := by
        rw [← hfi]
      have hne : values.filter (fun y =>
          bucketOf (startOfDay (minTime values)) w y.Time ==
            bucketOf (startOfDay (minTime values)) w (minTime values) + w * i) ≠ [] := by
        intro hnil
        apply hc
        unfold bucketMembers
        rw [hnil]
        rfl
      obtain ⟨x, hxf⟩ := List.exists_mem_of_ne_nil _ hne
      have hx2 := List.mem_filter.mp hxf
      refine ⟨x, hx2.1, ?_⟩
      have := hx2.2
      rw [beq_iff_eq] at this
      rw [this, hTime]

theorem nodup_times (f : Nat → Option ActualPower) (g : Nat → Nat)
    (hg : ∀ i p, f i = some p → p.Time = g i)
    (hinj : ∀ i j, g i = g j → i = j) :
    ∀ l : List Nat, l.Nodup → ((l.filterMap f).map (·.Time)).Nodup := by
  intro l
  induction l with
  | nil => intro _; simp
  | cons a l ih =>
    intro hl
    have hnd := List.nodup_cons.mp hl
    cases hfa : f a with
    | none =>
      simp only [List.filterMap_cons, hfa]
      exact ih hnd.2
    | some p =>
      simp only [List.filterMap_cons, hfa, List.map_cons, List.nodup_cons]
      refine ⟨?_, ih hnd.2⟩
      intro hmem
      rw [List.mem_map] at hmem
      obtain ⟨q, hq, hqt⟩ := hmem
      rw [List.mem_filterMap] at hq
      obtain ⟨j, hj, hfj⟩ := hq
      have h1 : q.Time = g j := hg j q hfj
      have h2 : p.Time = g a := hg a p hfa
      have hja : j = a := hinj j a (by rw [← h1, hqt, h2])
      exact hnd.1 (hja ▸ hj)

theorem resample_nodup (values : List ActualPower) (w : Nat) (hw : 0 < w) :
    ((resample_generation values w).map (·.Time)).Nodup := by
  by_cases hv : values.isEmpty
  · simp [resample_generation, hv]
  · rw [resample_eq values w (Bool.not_eq_true _ ▸ hv)]
    refine nodup_times _
      (fun i => bucketOf (startOfDay (minTime values)) w (minTime values) + w * i)
      ?_ ?_ (List.range _) (List.nodup_range _)
    · intro i p hfi
      split at hfi
      · exact absurd hfi (by simp)
      · simp only [Option.some.injEq] at hfi
        rw [← hfi]
    · intro i j hij
      exact Nat.eq_of_mul_eq_mul_left hw (Nat.add_left_cancel hij)

theorem resample_covers {values : List ActualPower} {w : Nat} (hw : 0 < w)
    {x : ActualPower} (hx : x ∈ values) :
    ∃ p ∈ resample_generation values w,
      p.Time = bucketOf (startOfDay (minTime values)) w x.Time := by
  have hvne : values ≠ [] := by
    intro h
    rw [h] at hx
    cases hx
  have hv : values.isEmpty = false := by
    cases values with
    | nil => exact absurd rfl hvne
    | cons v vs => rfl
  rw [resample_eq values w hv]
  have ho_le : startOfDay (minTime values) ≤ minTime values := startOfDay_le _
  have hq1 : (minTime values - startOfDay (minTime values)) / w ≤
      (x.Time - startOfDay (minTime values)) / w :=
    Nat.div_le_div_right (Nat.sub_le_sub_right (minTime_le hx) _)
  have hq2 : (x.Time - startOfDay (minTime values)) / w ≤
      (maxTime values - startOfDay (minTime values)) / w :=
    Nat.div_le_div_right (Nat.sub_le_sub_right (le_maxTime hx) _)
  have hmul1 : w * ((minTime values - startOfDay (minTime values)) / w) ≤
      w * ((x.Time - startOfDay (minTime values)) / w) :=
    Nat.mul_le_mul_left w hq1
  have hbidx : bucketOf (startOfDay (minTime values)) w (minTime values) +
      w * ((x.Time - startOfDay (minTime values)) / w -
        (minTime values - startOfDay (minTime values)) / w) =
      bucketOf (startOfDay (minTime values)) w x.Time := by
    unfold bucketOf
    rw [nat_mul_sub]
    omega
  refine ⟨({ Time := bucketOf (startOfDay (minTime values)) w x.Time
             PowerKW := max 0 ((bucketMembers values (startOfDay (minTime values)) w
                 (bucketOf (startOfDay (minTime values)) w x.Time)).sum /
               ((bucketMembers values (startOfDay (minTime values)) w
                 (bucketOf (startOfDay (minTime values)) w x.Time)).length : ℚ)) } :
      ActualPower), ?_, rfl⟩
  rw [List.mem_filterMap]
  refine ⟨(x.Time - startOfDay (minTime values)) / w -
      (minTime values - startOfDay (minTime values)) / w, ?_, ?_⟩
  · rw [List.mem_range]
    have hlf : bucketOf (startOfDay (minTime values)) w (maxTime values) -
        bucketOf (startOfDay (minTime values)) w (minTime values) =
        w * ((maxTime values - startOfDay (minTime values)) / w) -
          w * ((minTime values - startOfDay (minTime values)) / w) := by
      unfold bucketOf
      rw [Nat.add_sub_add_left]
    rw [hlf, ← nat_mul_sub, Nat.mul_div_cancel_left _ hw]
    omega
  · dsimp only
    rw [hbidx]
    have hxmem : x ∈ values.filter (fun y =>
        bucketOf (startOfDay (minTime values)) w y.Time ==
          bucketOf (startOfDay (minTime values)) w x.Time) := by
      rw [List.mem_filter]
      exact ⟨hx, by simp⟩
    have hlen : ¬ (bucketMembers values (startOfDay (minTime values)) w
        (bucketOf (startOfDay (minTime values)) w x.Time)).length = 0 := by
      unfold bucketMembers
      rw [List.length_map]
      intro h0
      rw [List.length_eq_zero] at h0
      rw [h0] at hxmem
      cases hxmem
    rw [if_neg hlen]

/-- Claim C8: for every series and positive bucket width, the resampled output
has exactly one point per bucket containing at least one input point — every
output point's time is the bucket of some input point (no rows for empty
buckets), output bucket labels are pairwise distinct, and every input point's
bucket appears — and on the six-point fixture at 15-minute buckets the output
is exactly the three buckets 00:00, 00:15 and 01:30 (minutes 0, 15, 90), with
no rows in the empty 00:30–01:30 span. -/
theorem claim_C8_resample_buckets (values : List ActualPower) (w : Nat)
    (hw : 0 < w) :
    (∀ p ∈ resample_generation values w,
      ∃ x ∈ values, bucketOf (startOfDay (minTime values)) w x.Time = p.Time) ∧
    ((resample_generation values w).map (·.Time)).Nodup ∧
    (∀ x ∈ values, ∃ p ∈ resample_generation values w,
      p.Time = bucketOf (startOfDay (minTime values)) w x.Time) ∧
    (resample_generation exResample6 15).map (·.Time) = [0, 15, 90] :=
  ⟨fun _ hp => resample_sources hp,
   resample_nodup values w hw,
   fun _ hx => resample_covers hw hx,
   by decide⟩

/-- Witness for C8 at the six-point fixture with 15-minute buckets. -/
theorem claim_C8_witness :
    0 < 15 ∧ ((resample_generation exResample6 15).map (·.Time)).Nodup :=
  ⟨by decide, (claim_C8_resample_buckets exResample6 15 (by decide)).2.1⟩
